import Mathlib

/-!
Verification development for the obsidian-dynamic-table-plugin repository.

The definitions below are a shallow embedding of the plugin's row-state
pipeline, translated from the TypeScript source:
  * `src/utils/values.ts`        — `extractValue`
  * `src/utils/formatters.ts`    — `makeFormatterForColumn`
  * `src/utils/sorting.ts`       — `getSortingFunction`
  * `src/DynamicTables/useDynamicTablesState.ts` — row building, filter /
    search / sort / paginate stages, pagination-state initialisation
  * `src/TableManager.ts`        — markdown table block parsing and editing
  * the callout checkbox sync module (`queueWrite`) and
    `CheckboxStateManager.saveState` — auxiliary-state persistence

JavaScript machine details are modelled explicitly where they matter:
`Number()` (which yields `NaN`, never an exception, on bad input),
truthiness, `Array.prototype.slice` / `splice` index normalisation, the
default (string-comparing) `Array.prototype.sort` comparator, and
`moment(raw, format)` as a total format-driven parser returning an
invalid marker on failure.  Moment's epoch-millisecond timestamps are
replaced by an order-isomorphic chronological code; only comparison
signs and validity are relied upon by any theorem.
-/

namespace DynTable

/-! ## JavaScript string primitives -/

/-- Whitespace as recognised by JavaScript's `trim` and by `Number()`
(the characters that can occur on a single line of a markdown file). -/
def jsWhitespace (c : Char) : Bool :=
  c = ' ' || c = '\t' || c = '\n' || c = '\r' || c = '\x0b' || c = '\x0c'

/-- Trim of a character list on both ends, as JavaScript `String.prototype.trim`. -/
def listTrim (cs : List Char) : List Char :=
  ((cs.dropWhile jsWhitespace).reverse.dropWhile jsWhitespace).reverse

/-- JavaScript `String.prototype.trim`. -/
def jsTrimString (s : String) : String :=
  String.mk (listTrim s.toList)

/-- Whether `pat` is a prefix of `l` (character lists). -/
def listStartsWith : List Char → List Char → Bool
  | _, [] => true
  | [], _ :: _ => false
  | c :: cs, p :: ps => c = p && listStartsWith cs ps

/-- Whether `pat` occurs as a contiguous substring of `l`
(JavaScript `String.prototype.includes`). -/
def listContainsSub (pat : List Char) : List Char → Bool
  | [] => pat.isEmpty
  | c :: rest => listStartsWith (c :: rest) pat || listContainsSub pat rest

/-- JavaScript `String.prototype.includes`. -/
def strContains (s pat : String) : Bool :=
  listContainsSub pat.toList s.toList

/-- Split on a separator character
(JavaScript `String.prototype.split` with a one-character separator). -/
def splitOnCharAux (sep : Char) : List Char → List Char → List String
  | [], acc => [String.mk acc.reverse]
  | c :: rest, acc =>
    if c = sep then String.mk acc.reverse :: splitOnCharAux sep rest []
    else splitOnCharAux sep rest (c :: acc)

/-- JavaScript `s.split(sep)` for a one-character separator. -/
def splitOnChar (sep : Char) (s : String) : List String :=
  splitOnCharAux sep s.toList []

/-- JavaScript `toLowerCase`, abstracted to the simple character mapping
(adequate for every string any theorem evaluates). -/
def jsToLower (s : String) : String :=
  String.map Char.toLower s

/-! ## JavaScript numbers and `Number(string)`

`values.ts` converts raw number cells with `Number(rawValue)`.  `Number`
never throws; on input that is not a numeral it returns `NaN`.  Finite
values are modelled as rationals (decimal numerals are exact in `ℚ`);
hexadecimal, `Infinity` and exponent forms are omitted — no claim
depends on them, only on the parsed/`NaN` distinction. -/

inductive JsNumber where
  | nan : JsNumber
  | val : Rat → JsNumber
deriving DecidableEq

/-- Digits to a natural number, most significant first. -/
def digitsToNat (ds : List Char) : Nat :=
  ds.foldl (fun acc c => acc * 10 + (c.toNat - '0'.toNat)) 0

/-- Unsigned decimal numeral: digits, optionally followed by a dot and
further digits; at least one digit overall. -/
def parseDecimalCore (cs : List Char) : Option Rat :=
  let intPart := cs.takeWhile Char.isDigit
  let rest := cs.dropWhile Char.isDigit
  match rest with
  | [] => if intPart.isEmpty then none else some ((digitsToNat intPart : Int) : Rat)
  | '.' :: frac =>
    if frac.all Char.isDigit && (!intPart.isEmpty || !frac.isEmpty) then
      some ((digitsToNat intPart : Rat) + (digitsToNat frac : Rat) / ((10 : Rat) ^ frac.length))
    else none
  | _ => none

/-- Optionally signed decimal numeral. -/
def parseSignedDecimal : List Char → Option Rat
  | '+' :: rest => parseDecimalCore rest
  | '-' :: rest => (parseDecimalCore rest).map (fun q => -q)
  | cs => parseDecimalCore cs

/-- JavaScript `Number(string)`: trimmed empty input is `0`, a numeral is
its value, anything else is `NaN`.  It never throws. -/
def jsNumberOfString (s : String) : JsNumber :=
  let t := listTrim s.toList
  if t.isEmpty then JsNumber.val 0
  else
    match parseSignedDecimal t with
    | some q => JsNumber.val q
    | none => JsNumber.nan

/-! ## Moment dates

`moment(raw, format)` parses `raw` against a pattern such as
`DD-MM-YYYY HH:mm`: runs of the letters Y M D H m s consume that many
digits, any other pattern character must match literally, and the result
is invalid (`isValid()` false) when the input does not fit or a field is
out of range.  A parsed instant is kept as its fields; chronological
comparison (`a.diff(b)`) goes through an order-isomorphic numeric code. -/

structure DateParts where
  year : Nat
  month : Nat
  day : Nat
  hour : Nat
  minute : Nat
  second : Nat
deriving DecidableEq

/-- Fields of an instant before any pattern field is filled in
(moment's defaults, collapsed to a fixed reference instant). -/
def emptyDateParts : DateParts :=
  { year := 0, month := 1, day := 1, hour := 0, minute := 0, second := 0 }

/-- Pattern letters recognised by the formats this plugin uses. -/
def isFmtLetter (c : Char) : Bool :=
  c = 'Y' || c = 'M' || c = 'D' || c = 'H' || c = 'm' || c = 's'

/-- Store a parsed field value under its pattern letter. -/
def setDateField (c : Char) (v : Nat) (p : DateParts) : DateParts :=
  if c = 'Y' then { p with year := v }
  else if c = 'M' then { p with month := v }
  else if c = 'D' then { p with day := v }
  else if c = 'H' then { p with hour := v }
  else if c = 'm' then { p with minute := v }
  else if c = 's' then { p with second := v }
  else p

/-- Read a field value by its pattern letter. -/
def getDateField (c : Char) (p : DateParts) : Nat :=
  if c = 'Y' then p.year
  else if c = 'M' then p.month
  else if c = 'D' then p.day
  else if c = 'H' then p.hour
  else if c = 'm' then p.minute
  else if c = 's' then p.second
  else 0

/-- Length of the run of copies of `c` at the head of the list, and the
remainder after the run. -/
def takeRun (c : Char) : List Char → Nat × List Char
  | [] => (0, [])
  | x :: xs =>
    if x = c then
      let r := takeRun c xs
      (r.1 + 1, r.2)
    else (0, x :: xs)

theorem takeRun_snd_length_le (c : Char) : ∀ l : List Char, (takeRun c l).2.length ≤ l.length := by
  intro l
  induction l with
  | nil => simp [takeRun]
  | cons x xs ih =>
    by_cases h : x = c
    · simpa [takeRun, h] using Nat.le_succ_of_le ih
    · simp [takeRun, h]

/-- Walk the format and the input in lockstep, collecting field values.
Each step consumes at least one format character, so the format length
serves as structural fuel (the zero-fuel case is unreachable from
`momentParse`). -/
def parseLoop : Nat → List Char → List Char → DateParts → Option DateParts
  | _, [], [], p => some p
  | _, [], _ :: _, _ => none
  | 0, _ :: _, _, _ => none
  | fuel + 1, f :: fs, input, p =>
    if isFmtLetter f then
      let r := takeRun f fs
      let width := r.1 + 1
      let digits := input.take width
      if digits.length = width && digits.all Char.isDigit then
        parseLoop fuel r.2 (input.drop width) (setDateField f (digitsToNat digits) p)
      else none
    else
      match input with
      | [] => none
      | i :: is => if i = f then parseLoop fuel fs is p else none

/-- Range checks behind moment's `isValid()` for the fields in play. -/
def validDateParts (p : DateParts) : Bool :=
  1 ≤ p.month && p.month ≤ 12 && 1 ≤ p.day && p.day ≤ 31 &&
    p.hour ≤ 23 && p.minute ≤ 59 && p.second ≤ 59

/-- Model of `moment(raw, format)` followed by the `isValid()` test:
`none` is an invalid moment, `some p` a parsed instant. -/
def momentParse (raw fmt : String) : Option DateParts :=
  match parseLoop fmt.toList.length fmt.toList raw.toList emptyDateParts with
  | none => none
  | some p => if validDateParts p then some p else none

/-- Chronological code of an instant: lexicographic in
year, month, day, hour, minute, second, hence order-isomorphic to the
epoch-millisecond timestamp moment uses for `diff`. -/
def encodeDateParts (p : DateParts) : Int :=
  ((((((p.year : Int) * 100 + p.month) * 100 + p.day) * 100 + p.hour) * 100
      + p.minute) * 100 + p.second)

/-- Zero-padded rendering of a field value to the width of its pattern run. -/
def natToPaddedString (w v : Nat) : String :=
  let s := toString v
  if s.length < w then String.mk (List.replicate (w - s.length) '0') ++ s else s

/-- Printing loop of `moment.format(pattern)`: runs of pattern letters
emit the zero-padded field, other characters are copied verbatim; the
format length again serves as structural fuel. -/
def printLoop : Nat → List Char → DateParts → List Char
  | _, [], _ => []
  | 0, _ :: _, _ => []
  | fuel + 1, f :: fs, p =>
    if isFmtLetter f then
      let r := takeRun f fs
      (natToPaddedString (r.1 + 1) (getDateField f p)).toList ++ printLoop fuel r.2 p
    else f :: printLoop fuel fs p

/-- Model of `moment.format(pattern)`. -/
def momentPrint (fmt : String) (p : DateParts) : String :=
  String.mk (printLoop fmt.toList.length fmt.toList p)

/-! ## Typed cell values

`extractValue` can hand back a number, a boolean, a moment, a string or
`null`; later stages can also see `undefined` (a property lookup miss).
All six shapes are one inductive. -/

inductive Value where
  | undef : Value
  | null : Value
  | num : JsNumber → Value
  | bool : Bool → Value
  | date : DateParts → Value
  | str : String → Value
deriving DecidableEq

/-- JavaScript truthiness of a cell value. -/
def jsTruthy : Value → Bool
  | Value.undef => false
  | Value.null => false
  | Value.num JsNumber.nan => false
  | Value.num (JsNumber.val q) => q ≠ 0
  | Value.bool b => b
  | Value.date _ => true
  | Value.str s => s ≠ ""

/-- Rendering of a finite JavaScript number (decimal rendering of
non-integers is approximated; no theorem evaluates it). -/
def jsNumToString (n : JsNumber) : String :=
  match n with
  | JsNumber.nan => "NaN"
  | JsNumber.val q => if q.den = 1 then toString q.num else toString q

/-- JavaScript `v?.toString()`: `none` when `v` is nullish.  Moment's
human-readable `toString` is abstracted to a fixed-pattern print; no
theorem depends on its exact text. -/
def jsValueToStringOpt : Value → Option String
  | Value.undef => none
  | Value.null => none
  | Value.num n => some (jsNumToString n)
  | Value.bool b => some (if b then "true" else "false")
  | Value.date p => some (momentPrint "YYYY-MM-DD HH:mm:ss" p)
  | Value.str s => some s

/-! ## Columns -/

inductive ColumnType where
  | string : ColumnType
  | number : ColumnType
  | bool : ColumnType
  | date : ColumnType
  | datetime : ColumnType
  | time : ColumnType
  | enum : ColumnType
deriving DecidableEq

/-- Enriched column (`EtDataColumn`), as produced by the column indexing
in `useDynamicTablesState` (the DOM element is irrelevant here and the
per-column formatter is kept outside so columns stay comparable). -/
structure DataColumn where
  name : String
  aliasName : String
  type : ColumnType
  dateFormat : String
  numberFormat : String
  yesFormat : String
  noFormat : String
  enumMap : List (String × String)
  searchable : Bool
  index : Nat
deriving DecidableEq

/-- Constants of `sharedConstants.ts`. -/
def DEFAULT_COLUMNS_TYPE : ColumnType := ColumnType.string

def DEFAULT_DATE_FORMAT : String := "DD-MM-YYYY"

def DEFAULT_DATE_TIME_FORMAT : String := "DD-MM-YYYY HH:mm"

def DEFAULT_TIME_FORMAT : String := "HH:mm"

def DEFAULT_BOOL_YES_INPUT : String := "1"

def DEFAULT_BOOL_NO_INPUT : String := "0"

def DEFAULT_BOOL_YES_FORMAT : String := "✔️"

def DEFAULT_BOOL_NO_FORMAT : String := "✖️"

def DEFAULT_PAGE_SIZE : Int := 25

def DEFAULT_PAGES_SIZE_OPTIONS : List Int := [25, 50, 100]

/-- Per-column configuration (`EtConfigurationColumn`), restricted to
the fields the embedded pipeline reads. -/
structure ColumnConfig where
  aliasOpt : Option String := none
  typeOpt : Option ColumnType := none
  dateFormatOpt : Option String := none
  yesFormatOpt : Option String := none
  noFormatOpt : Option String := none
  searchableOpt : Option Bool := none
  numberFormatOpt : Option String := none
  enumOpt : Option (List (String × String)) := none
deriving DecidableEq

/-- Column indexing of `useDynamicTablesState`: resolve type, alias and
format parameters, layering column configuration over defaults.
`rest.alias || columnName` makes an empty alias fall back to the header. -/
def indexColumn (columnName : String) (cc : ColumnConfig) (index : Nat) : DataColumn :=
  let type := cc.typeOpt.getD DEFAULT_COLUMNS_TYPE
  let dateFormat :=
    if type = ColumnType.datetime then cc.dateFormatOpt.getD DEFAULT_DATE_TIME_FORMAT
    else if type = ColumnType.time then DEFAULT_TIME_FORMAT
    else cc.dateFormatOpt.getD DEFAULT_DATE_FORMAT
  { name := columnName
    aliasName :=
      match cc.aliasOpt with
      | some a => if a = "" then columnName else a
      | none => columnName
    type := type
    dateFormat := dateFormat
    numberFormat := cc.numberFormatOpt.getD ""
    yesFormat := cc.yesFormatOpt.getD DEFAULT_BOOL_YES_FORMAT
    noFormat := cc.noFormatOpt.getD DEFAULT_BOOL_NO_FORMAT
    enumMap := cc.enumOpt.getD []
    searchable := cc.searchableOpt.getD false
    index := index }

/-- Extraction-side boolean yes token: the hook passes
`configuration['yes-format'] ?? DEFAULT_BOOL_YES_INPUT` to `extractValue`. -/
def tableYesInputToken (cfgYes : Option String) : String :=
  cfgYes.getD DEFAULT_BOOL_YES_INPUT

/-! ## `extractValue` (src/utils/values.ts)

Each branch of the source is wrapped in try/catch returning `null`, but
no branch can actually throw: `Number()` returns `NaN` on bad input,
`===` cannot fail, and `moment()` returns an invalid moment rather than
raising.  The only reachable `null` is the explicit `isValid()` check
of the date branch. -/

def extractValue (rawValue : String) (column : DataColumn)
    (dateFormat yesFormat : String) : Value :=
  match column.type with
  | ColumnType.number => Value.num (jsNumberOfString rawValue)
  | ColumnType.bool => Value.bool (rawValue = yesFormat)
  | ColumnType.date =>
    match momentParse rawValue dateFormat with
    | none => Value.null
    | some p => Value.date p
  | ColumnType.datetime =>
    match momentParse rawValue dateFormat with
    | none => Value.null
    | some p => Value.date p
  | ColumnType.time =>
    match momentParse rawValue dateFormat with
    | none => Value.null
    | some p => Value.date p
  | _ => Value.str rawValue


/-! ## `makeFormatterForColumn` (src/utils/formatters.ts)

A custom formatter string is compiled with `new Function(...)`; the
returned closure is wrapped so that a throwing formatter falls back to
the cell value.  Custom formatters are therefore modelled as either a
function or a thrower. -/

inductive CustomFormatter where
  | fn : (Value → Value) → CustomFormatter
  | throwing : CustomFormatter

/-- Lookup in an association list keyed by strings
(JavaScript object property read). -/
def getAssoc {α : Type} (l : List (String × α)) (k : String) : Option α :=
  (l.find? (fun p => p.1 == k)).map Prod.snd

/-- Write in an association list keyed by strings (JavaScript object
property write: an existing key keeps its position, a new key is
appended). -/
def setAssoc {α : Type} : List (String × α) → String → α → List (String × α)
  | [], k, v => [(k, v)]
  | (k', v') :: rest, k, v =>
    if k' = k then (k, v) :: rest else (k', v') :: setAssoc rest k v

/-- Formatter attached to a column.  Every per-type branch of the source
is wrapped in try/catch returning the unformatted value; the branches
that can actually throw are the method calls on `null`/`undefined`
(`toLocaleString`, `format`), modelled by the fall-through cases.
`toLocaleString`'s locale rendering of a finite number is abstracted to
`jsNumToString`. -/
def makeFormatterForColumn (column : DataColumn) (formatter : Option CustomFormatter)
    (cell : Value) : Value :=
  match formatter with
  | some (CustomFormatter.fn f) => f cell
  | some CustomFormatter.throwing => cell
  | none =>
    match column.type with
    | ColumnType.number =>
      match cell with
      | Value.num n => Value.str (jsNumToString n)
      | v => v
    | ColumnType.bool =>
      Value.str (if jsTruthy cell then column.yesFormat else column.noFormat)
    | ColumnType.date =>
      match cell with
      | Value.date p => Value.str (momentPrint column.dateFormat p)
      | v => v
    | ColumnType.datetime =>
      match cell with
      | Value.date p => Value.str (momentPrint column.dateFormat p)
      | v => v
    | ColumnType.time =>
      match cell with
      | Value.date p => Value.str (momentPrint column.dateFormat p)
      | v => v
    | ColumnType.enum =>
      match jsValueToStringOpt cell with
      | some k =>
        match getAssoc column.enumMap k with
        | some label => Value.str label
        | none => cell
      | none => cell
    | _ => cell

/-! ## `getSortingFunction` (src/utils/sorting.ts) -/

/-- Leading `-` detection and removal of the sort directive
(`sortField.startsWith('-')` and `sortField.slice(1)`). -/
def stripDescMarker (sortField : String) : Bool × String :=
  match sortField.toList with
  | '-' :: rest => (true, String.mk rest)
  | _ => (false, sortField)

/-- Numeric coercion applied by JavaScript subtraction to the values a
number/bool column can hold. -/
def jsToNumberForArith : Value → JsNumber
  | Value.undef => JsNumber.nan
  | Value.null => JsNumber.val 0
  | Value.num n => n
  | Value.bool b => JsNumber.val (if b then 1 else 0)
  | Value.date p => JsNumber.val (encodeDateParts p)
  | Value.str s => jsNumberOfString s

/-- Sign of the number/bool comparator `(a ?? 0) - (b ?? 0)`
(`Array.sort` only inspects the sign; a `NaN` comparator value is
engine-defined and mapped to `0`). -/
def numSortCompare (desc : Bool) (a b : Value) : Int :=
  let av := match a with
    | Value.undef => JsNumber.val 0
    | Value.null => JsNumber.val 0
    | v => jsToNumberForArith v
  let bv := match b with
    | Value.undef => JsNumber.val 0
    | Value.null => JsNumber.val 0
    | v => jsToNumberForArith v
  match av, bv with
  | JsNumber.val x, JsNumber.val y =>
    let d := if desc then y - x else x - y
    if d < 0 then -1 else if 0 < d then 1 else 0
  | _, _ => 0

/-- Date/time comparator of `getSortingFunction`: the `!a` / `!b` tests
are JavaScript truthiness, `diff` compares the chronological codes. -/
def dateSortCompare (desc : Bool) (a b : Value) : Int :=
  if desc then
    if !jsTruthy a && !jsTruthy b then 0
    else if !jsTruthy a then -1
    else if !jsTruthy b then 1
    else
      match a, b with
      | Value.date p, Value.date q => encodeDateParts q - encodeDateParts p
      | _, _ => 0
  else
    if !jsTruthy a && !jsTruthy b then 0
    else if !jsTruthy a then 1
    else if !jsTruthy b then -1
    else
      match a, b with
      | Value.date p, Value.date q => encodeDateParts p - encodeDateParts q
      | _, _ => 0

/-- Fallback comparator `(a ?? '').localeCompare(b ?? '')`, with locale
collation abstracted to code-point order. -/
def strSortCompare (desc : Bool) (a b : Value) : Int :=
  let sa := match a with
    | Value.undef => ""
    | Value.null => ""
    | v => (jsValueToStringOpt v).getD ""
  let sb := match b with
    | Value.undef => ""
    | Value.null => ""
    | v => (jsValueToStringOpt v).getD ""
  let x := if desc then sb else sa
  let y := if desc then sa else sb
  if x < y then -1 else if y < x then 1 else 0

/-- Model of `getSortingFunction`: find the column whose alias is the
(possibly `-`-stripped) sort field and pick the type-aware comparator;
`none` when no column matches. -/
def getSortingFunction (sortField : String) (columns : List DataColumn) :
    Option (Value → Value → Int) :=
  let dm := stripDescMarker sortField
  match columns.find? (fun c => c.aliasName == dm.2) with
  | none => none
  | some column =>
    match column.type with
    | ColumnType.number => some (numSortCompare dm.1)
    | ColumnType.bool => some (numSortCompare dm.1)
    | ColumnType.date => some (dateSortCompare dm.1)
    | ColumnType.datetime => some (dateSortCompare dm.1)
    | ColumnType.time => some (dateSortCompare dm.1)
    | _ => some (strSortCompare dm.1)


/-! ## Rows and the filter / search stage (useDynamicTablesState)

A rendered row object carries its original `index`, the alias-keyed cell
value map (`allCells`, spread into the row object), and the
pre-computed lowercase `searchIndex`. -/

structure RowView where
  index : Nat
  values : List (String × Value)
  searchIndex : String
deriving DecidableEq

/-- Property read `$row[field]` on a row object: a miss is `undefined`.
(The row object also carries `index` / `orderedCells` / … properties,
but the spread of `allCells` comes last, so a column alias always wins;
sort fields that match no column never reach a property read.) -/
def rowProp (r : RowView) (k : String) : Value :=
  (getAssoc r.values k).getD Value.undef

/-- A filter expression string, compiled with `Function('$row', ...)`.
Evaluation either yields a boolean (the truthiness of the returned
value) or throws — a syntax error in the string throws at each
invocation, a runtime error throws on the rows it hits.  Both are the
`throwing` shape; a well-behaved expression is a predicate. -/
inductive FilterExpr where
  | pred : (RowView → Bool) → FilterExpr
  | throwing : FilterExpr

/-- Evaluation of one filter expression on one row; `Except.error` is a
thrown JavaScript exception. -/
def evalFilterExpr (e : FilterExpr) (r : RowView) : Except Unit Bool :=
  match e with
  | FilterExpr.pred f => Except.ok (f r)
  | FilterExpr.throwing => Except.error ()

/-- Model of the function `createFilterFunctionCache` stores for an
expression.  In the source the try/catch wraps only the assignment of
the arrow function — which cannot fail — so the cached entry is always
the raw, possibly-throwing evaluator and the catch branch assigning
`() => false` is unreachable. -/
def cachedFilterFunction (e : FilterExpr) : RowView → Except Unit Bool :=
  fun r => evalFilterExpr e r

/-- The `filtering.every(expr => fn($row))` conjunction: short-circuits
on the first false, and a thrown evaluation propagates. -/
def rowMatchesFilters (filtering : List FilterExpr) (r : RowView) : Except Unit Bool :=
  match filtering with
  | [] => Except.ok true
  | e :: rest =>
    match cachedFilterFunction e r with
    | Except.error er => Except.error er
    | Except.ok b => if b then rowMatchesFilters rest r else Except.ok false

/-- The `result.filter($row => matchesFilter && matchesSearch)` body,
row by row: `matchesSearch` is `!lcSearch || searchIndex.includes(lcSearch)`
and cannot throw; a throw from `matchesFilter` propagates out of
`Array.prototype.filter`. -/
def filterRowsExcept (filtering : List FilterExpr) (lcSearch : String) :
    List RowView → Except Unit (List RowView)
  | [] => Except.ok []
  | r :: rest =>
    match rowMatchesFilters filtering r with
    | Except.error e => Except.error e
    | Except.ok m =>
      match filterRowsExcept filtering lcSearch rest with
      | Except.error e => Except.error e
      | Except.ok tail =>
        if m && (lcSearch == "" || strContains r.searchIndex lcSearch) then
          Except.ok (r :: tail)
        else Except.ok tail

/-- The guarded filter stage: `if (filtering.length > 0 || lcSearch)`
wraps the call to `filter`, otherwise the row list passes through. -/
def applyFilterStage (filtering : List FilterExpr) (lcSearch : String)
    (rows : List RowView) : Except Unit (List RowView) :=
  if filtering.isEmpty && lcSearch == "" then Except.ok rows
  else filterRowsExcept filtering lcSearch rows

/-- Per-row boolean a successful run of the stage agrees with: the
filter conjunction when it evaluates, conjoined with the search test. -/
def rowPassesBool (filtering : List FilterExpr) (lcSearch : String) (r : RowView) : Bool :=
  (match rowMatchesFilters filtering r with
   | Except.ok b => b
   | Except.error _ => false) &&
    (lcSearch == "" || strContains r.searchIndex lcSearch)

/-! ## Sort stage -/

/-- The `result.sort((a, b) => sortFn(a[sortField], b[sortField]))` call.
`Array.prototype.sort` is modelled by a comparison sort (insertion
sort); every theorem relies only on the output being a permutation. -/
def sortStage (sorting : Option String) (columns : List DataColumn)
    (rows : List RowView) : List RowView :=
  match sorting with
  | none => rows
  | some s =>
    match getSortingFunction s columns with
    | none => rows
    | some sortFn =>
      let sortField := (stripDescMarker s).2
      List.insertionSort
        (fun a b => sortFn (rowProp a sortField) (rowProp b sortField) ≤ 0) rows

/-! ## Pagination -/

structure Pagination where
  pageSize : Int
  pageNumber : Int
  pageSizes : List Int
deriving DecidableEq

/-- Index normalisation of `Array.prototype.slice` / `splice`: a
negative index counts from the end (clamped at 0), a positive one is
clamped at the length. -/
def jsSliceNorm (len : Nat) (i : Int) : Nat :=
  if i < 0 then ((len : Int) + i).toNat else min i.toNat len

/-- JavaScript `Array.prototype.slice(s, e)`. -/
def jsArraySlice {α : Type} (l : List α) (s e : Int) : List α :=
  (l.take (jsSliceNorm l.length e)).drop (jsSliceNorm l.length s)

/-- The pagination slice
`result.slice(pageSize * (pageNumber - 1), pageSize * pageNumber)`,
skipped when pagination is off. -/
def paginateStage (pagination : Option Pagination) (rows : List RowView) : List RowView :=
  match pagination with
  | none => rows
  | some p => jsArraySlice rows (p.pageSize * (p.pageNumber - 1)) (p.pageSize * p.pageNumber)

/-- Pagination configuration block (`EtConfigurationPagination`). -/
structure PaginationConfig where
  pageSizeOpt : Option Int := none
  pageSizesOpt : Option (List Int) := none
deriving DecidableEq

/-- Default comparator of `Array.prototype.sort()`: elements are
compared as strings (hence `[9, 100].sort()` is `[100, 9]`). -/
def jsDefaultSort (l : List Int) : List Int :=
  List.insertionSort (fun a b => toString a ≤ toString b) l

/-- Initial pagination state of `useDynamicTablesState`: defaults
applied, then the configured page size pushed and the list sorted with
the default comparator — but only when the page size was absent. -/
def initPagination (cfg : Option PaginationConfig) : Option Pagination :=
  match cfg with
  | none => none
  | some c =>
    let pageSize := c.pageSizeOpt.getD DEFAULT_PAGE_SIZE
    let pageSizes0 := c.pageSizesOpt.getD DEFAULT_PAGES_SIZE_OPTIONS
    let pageSizes :=
      if pageSize ∈ pageSizes0 then pageSizes0
      else jsDefaultSort (pageSizes0 ++ [pageSize])
    some { pageNumber := 1, pageSize := pageSize, pageSizes := pageSizes }


/-! ## Row building with checkbox-state injection (useDynamicTablesState)

Each raw row is turned into ordered cells (typed value + formatted
value), the alias-keyed `allCells` object, the checkbox-state metas that
match the row index are merged in as `'true'` / `'false'` strings, and
the lowercase search index is precomputed.  While the cells are mapped,
a raw cell that renders an `<input type="checkbox" id="...">` whose id
is not yet in the loaded state map registers a fresh meta — the state
map threads through the row loop. -/

structure CheckboxMeta where
  checked : Bool
  rowIndex : Nat
  column : String
deriving DecidableEq

/-- The persisted checkbox-state object: id → meta, in insertion order. -/
abbrev CheckboxStates := List (String × CheckboxMeta)

/-- First match of the regex `id="([^"]+)"`: scan for `id="`, then a
non-empty capture up to a closing quote. -/
def matchIdScan : List Char → Option String
  | [] => none
  | c :: rest =>
    if listStartsWith (c :: rest) ('i' :: 'd' :: '=' :: '"' :: []) then
      let after := (c :: rest).drop 4
      let cap := after.takeWhile (fun ch => ch ≠ '"')
      if !cap.isEmpty && cap.length < after.length then some (String.mk cap)
      else matchIdScan rest
    else matchIdScan rest

/-- One cell of the `cells.map((cellContent, cellIdx) => ...)` body. -/
structure CellData where
  column : DataColumn
  rawValue : String
  value : Value
  formattedValue : Value

/-- Process one cell: pick the per-type input format, extract the typed
value, detect an unseen checkbox in the raw markdown cell, and format.
`raw` is `rawTableLines?.[rowIdx + 2]?.[cellIdx] ?? ''`. -/
def buildCell (dateFormat datetimeFormat yesFormat : String)
    (customFormatters : List (String × CustomFormatter))
    (rawLines : Option (List (List String))) (rowIdx : Nat)
    (states : CheckboxStates) (column : DataColumn) (cellContent : String) :
    CellData × CheckboxStates :=
  let format :=
    if column.type = ColumnType.datetime then datetimeFormat
    else if column.type = ColumnType.time then DEFAULT_TIME_FORMAT
    else dateFormat
  let value := extractValue cellContent column format yesFormat
  let raw := (((rawLines.getD []).getD (rowIdx + 2) []).getD column.index "")
  let states' :=
    if strContains raw "type=\"checkbox\"" then
      match matchIdScan raw.toList with
      | some cid =>
        match getAssoc states cid with
        | some _ => states
        | none =>
          states ++ [(cid,
            { checked := strContains raw "checked", rowIndex := rowIdx,
              column := column.name })]
      | none => states
    else states
  ({ column := column, rawValue := raw, value := value,
     formattedValue :=
       makeFormatterForColumn column (getAssoc customFormatters column.name) value },
   states')

/-- The cell loop of one row, threading the checkbox-state map.  Cells
are paired with their columns positionally (`indexedColumns[cellIdx]`);
rows are assumed no wider than the header, as a wider row would make the
source throw on `column.type`. -/
def buildCells (dateFormat datetimeFormat yesFormat : String)
    (customFormatters : List (String × CustomFormatter))
    (rawLines : Option (List (List String))) (rowIdx : Nat) :
    List (DataColumn × String) → CheckboxStates → List CellData × CheckboxStates
  | [], states => ([], states)
  | (column, content) :: rest, states =>
    let r := buildCell dateFormat datetimeFormat yesFormat customFormatters
      rawLines rowIdx states column content
    let rs := buildCells dateFormat datetimeFormat yesFormat customFormatters
      rawLines rowIdx rest r.2
    (r.1 :: rs.1, rs.2)

/-- Injection of one checkbox meta into `allCells`
(the `Object.values(checkboxStates).forEach` body). -/
def injectMeta (rowIdx : Nat) (acc : List (String × Value)) (meta : CheckboxMeta) :
    List (String × Value) :=
  if meta.rowIndex = rowIdx then
    let inj := if meta.checked then "true" else "false"
    match getAssoc acc meta.column with
    | some (Value.str s) =>
      if strContains s inj then acc
      else setAssoc acc meta.column (Value.str (jsTrimString (s ++ " " ++ inj)))
    | _ => setAssoc acc meta.column (Value.str inj)
  else acc

/-- One row of the `tableData.rows.map((cells, rowIdx) => ...)` body. -/
def buildRow (columns : List DataColumn)
    (dateFormat datetimeFormat yesFormat : String)
    (customFormatters : List (String × CustomFormatter))
    (rawLines : Option (List (List String))) (rowIdx : Nat)
    (cells : List String) (states : CheckboxStates) : RowView × CheckboxStates :=
  let built := buildCells dateFormat datetimeFormat yesFormat customFormatters
    rawLines rowIdx (columns.zip cells) states
  let allCells0 :=
    built.1.foldl (fun acc c => setAssoc acc c.column.aliasName c.value) []
  let allCells := (built.2.map Prod.snd).foldl (injectMeta rowIdx) allCells0
  let searchIndex :=
    String.intercalate " "
      ((built.1.filter (fun c => c.column.searchable)).map (fun c =>
        (((getAssoc allCells c.column.aliasName).getD Value.undef
          |> jsValueToStringOpt).map jsToLower).getD ""))
  ({ index := rowIdx, values := allCells, searchIndex := searchIndex }, built.2)

/-- The row loop, threading the checkbox-state map and counting the row
index up from `start`. -/
def buildRowsAux (columns : List DataColumn)
    (dateFormat datetimeFormat yesFormat : String)
    (customFormatters : List (String × CustomFormatter))
    (rawLines : Option (List (List String))) :
    Nat → CheckboxStates → List (List String) → List RowView × CheckboxStates
  | _, states, [] => ([], states)
  | start, states, cells :: rest =>
    let r := buildRow columns dateFormat datetimeFormat yesFormat customFormatters
      rawLines start cells states
    let rs := buildRowsAux columns dateFormat datetimeFormat yesFormat customFormatters
      rawLines (start + 1) r.2 rest
    (r.1 :: rs.1, rs.2)

/-- All built rows of a table snapshot, before filter/sort/paginate. -/
def buildRows (columns : List DataColumn)
    (dateFormat datetimeFormat yesFormat : String)
    (customFormatters : List (String × CustomFormatter))
    (rawLines : Option (List (List String)))
    (states0 : CheckboxStates) (tableRows : List (List String)) : List RowView :=
  (buildRowsAux columns dateFormat datetimeFormat yesFormat customFormatters
    rawLines 0 states0 tableRows).1

/-- The emitted view of the `rows` memo: build, then filter/search, then
sort, then paginate (the order of the DynamicTables variant of the
hook).  An exception thrown by a filter expression propagates out of the
whole computation. -/
def computeRows (columns : List DataColumn)
    (dateFormat datetimeFormat yesFormat : String)
    (customFormatters : List (String × CustomFormatter))
    (rawLines : Option (List (List String)))
    (states0 : CheckboxStates) (tableRows : List (List String))
    (filtering : List FilterExpr) (searching : Option String)
    (sorting : Option String) (pagination : Option Pagination) :
    Except Unit (List RowView) :=
  let built := buildRows columns dateFormat datetimeFormat yesFormat
    customFormatters rawLines states0 tableRows
  let lcSearch := (searching.map jsToLower).getD ""
  match applyFilterStage filtering lcSearch built with
  | Except.error e => Except.error e
  | Except.ok filtered =>
    Except.ok (paginateStage pagination (sortStage sorting columns filtered))


/-! ## TableManager (src/TableManager.ts)

A markdown document is split on newlines and grouped into text/table
blocks; a table starts at a line matching the regex for a pipe-delimited
row whose successor matches the sub-header regex. -/

/-- The regex `^\|.*?\|$`: at least two characters, first and last `|`. -/
def isTableLine (line : String) : Bool :=
  let cs := line.toList
  2 ≤ cs.length && cs.head? = some '|' && cs.getLast? = some '|'

/-- Characters the sub-header body class `[-\s|]` admits. -/
def subHeaderBodyChar (c : Char) : Bool :=
  c = '-' || jsWhitespace c || c = '|'

/-- The regex `^\|\s*-[-\s|]*?-\s*\|$`: pipes around a body that,
once whitespace-trimmed, starts and ends with `-` (two distinct
hyphens) and contains only hyphens, whitespace and pipes. -/
def isSubHeaderLine (line : String) : Bool :=
  let cs := line.toList
  if 2 ≤ cs.length && cs.head? = some '|' && cs.getLast? = some '|' then
    let u := listTrim ((cs.drop 1).dropLast)
    2 ≤ u.length && u.head? = some '-' && u.getLast? = some '-' &&
      u.all subHeaderBodyChar
  else false

inductive BlockType where
  | text : BlockType
  | table : BlockType
deriving DecidableEq

structure BlockOfText where
  type : BlockType
  lines : List String
deriving DecidableEq

/-- The block-grouping loop of `TableDocument.documentToBlocks`, carrying
the current open block. -/
def blocksLoop : List String → Option BlockOfText → List BlockOfText
  | [], cur => cur.toList
  | line :: rest, cur =>
    if isTableLine line && ((rest.head?.map isSubHeaderLine).getD false) then
      cur.toList ++ blocksLoop rest (some { type := BlockType.table, lines := [line] })
    else
      match cur with
      | some b =>
        match b.type with
        | BlockType.table =>
          if isTableLine line then
            blocksLoop rest (some { b with lines := b.lines ++ [line] })
          else
            [b] ++ blocksLoop rest (some { type := BlockType.text, lines := [line] })
        | BlockType.text =>
          blocksLoop rest (some { b with lines := b.lines ++ [line] })
      | none =>
        blocksLoop rest (some { type := BlockType.text, lines := [line] })

/-- Model of the `TableDocument` constructor. -/
def documentToBlocks (fileContent : String) : List BlockOfText :=
  blocksLoop (splitOnChar '\n' fileContent) none

/-- Serialisation `TableDocument.toString`. -/
def docToString (blocks : List BlockOfText) : String :=
  String.intercalate "\n" (blocks.map BlockOfText.lines).flatten

/-- Model of `TableDocument.hasTables`. -/
def hasTables (blocks : List BlockOfText) : Bool :=
  blocks.any (fun b => match b.type with | BlockType.table => true | _ => false)

/-- Model of `TableDocument.getTable`: the index-th table block, if any. -/
def getTable (blocks : List BlockOfText) (index : Nat) : Option BlockOfText :=
  (blocks.filter (fun b =>
    match b.type with | BlockType.table => true | _ => false)).get? index

/-- Replace the lines of the index-th table block (the source mutates
the block object, then serialises the whole document). -/
def replaceTableAt : List BlockOfText → Nat → List String → List BlockOfText
  | [], _, _ => []
  | b :: bs, i, nl =>
    match b.type with
    | BlockType.table =>
      if i = 0 then { b with lines := nl } :: bs
      else b :: replaceTableAt bs (i - 1) nl
    | BlockType.text => b :: replaceTableAt bs i nl

/-- JavaScript `splice(start, 0, item)`. -/
def jsSpliceInsert {α : Type} (l : List α) (start : Int) (item : α) : List α :=
  let s := jsSliceNorm l.length start
  l.take s ++ [item] ++ l.drop s

/-- JavaScript `splice(start, 1)`. -/
def jsSpliceRemoveOne {α : Type} (l : List α) (start : Int) : List α :=
  let s := jsSliceNorm l.length start
  l.take s ++ l.drop (s + 1)

/-- JavaScript `Array.prototype.at(i)`. -/
def jsArrayAt {α : Type} (l : List α) (i : Int) : Option α :=
  if i < 0 then
    if 0 ≤ (l.length : Int) + i then l.get? ((l.length : Int) + i).toNat else none
  else l.get? i.toNat

/-- Model of `TableManager.valuesToLine`. -/
def valuesToLine (values : List String) : String :=
  "|" ++ String.intercalate "|" (values.map jsTrimString) ++ "|"

/-- Model of `TableManager.lineToValues`. -/
def lineToValues (line : String) : List String :=
  let cs := line.toList
  let cs := match cs with | '|' :: rest => rest | l => l
  let cs := if cs.getLast? = some '|' then cs.dropLast else cs
  splitOnChar '|' (String.mk cs)

/-- Model of `TableManager.insertLine`. -/
def insertLine (fileContent : String) (lineNo : Int) (values : List String)
    (tableIndex : Nat) : String :=
  let blocks := documentToBlocks fileContent
  if hasTables blocks = false then fileContent
  else
    match getTable blocks tableIndex with
    | none => fileContent
    | some tableBlock =>
      let targetLineNo : Int :=
        if lineNo = -1 then tableBlock.lines.length else lineNo + 2
      docToString (replaceTableAt blocks tableIndex
        (jsSpliceInsert tableBlock.lines targetLineNo (valuesToLine values)))

/-- Model of `TableManager.modifyLine` (the `hasOwnProperty` guard is an
in-bounds test on the array index). -/
def modifyLine (fileContent : String) (lineNo : Int) (values : List String)
    (tableIndex : Nat) : String :=
  let blocks := documentToBlocks fileContent
  if hasTables blocks = false then fileContent
  else
    match getTable blocks tableIndex with
    | none => fileContent
    | some tableBlock =>
      let targetLineNo : Int :=
        if lineNo = -1 then tableBlock.lines.length else lineNo + 2
      if 0 ≤ targetLineNo ∧ targetLineNo < (tableBlock.lines.length : Int) then
        docToString (replaceTableAt blocks tableIndex
          (tableBlock.lines.set targetLineNo.toNat (valuesToLine values)))
      else fileContent

/-- Model of `TableManager.removeLine`. -/
def removeLine (fileContent : String) (lineNo : Int) (tableIndex : Nat) : String :=
  let blocks := documentToBlocks fileContent
  if hasTables blocks = false then fileContent
  else
    match getTable blocks tableIndex with
    | none => fileContent
    | some tableBlock =>
      let targetLineNo : Int :=
        if lineNo = -1 then tableBlock.lines.length else lineNo + 2
      docToString (replaceTableAt blocks tableIndex
        (jsSpliceRemoveOne tableBlock.lines targetLineNo))

/-- Model of `TableManager.readLine` (an empty line string is falsy in the
`if (line)` guard, hence also `null`). -/
def readLine (fileContent : String) (lineNo : Int) (tableIndex : Nat) :
    Option (List String) :=
  let blocks := documentToBlocks fileContent
  if hasTables blocks = false then none
  else
    match getTable blocks tableIndex with
    | none => none
    | some tableBlock =>
      let targetLineNo : Int :=
        if lineNo = -1 then tableBlock.lines.length else lineNo + 2
      match jsArrayAt tableBlock.lines targetLineNo with
      | some line => if line = "" then none else some (lineToValues line)
      | none => none

/-- Model of `TableManager.readTableLines`. -/
def readTableLines (fileContent : String) (tableIndex : Nat) :
    Option (List (List String)) :=
  let blocks := documentToBlocks fileContent
  if hasTables blocks = false then none
  else
    match getTable blocks tableIndex with
    | none => none
    | some tableBlock => some (tableBlock.lines.map lineToValues)

/-! ## Auxiliary-state store writes

A checkbox toggle is a read-modify-write against the per-document JSON
state file: read the current map, set one key, write the map back.  The
callout-sync module funnels the body through `queueWrite`, whose promise
chain runs the second body only after the first has settled, so for one
file path only the serialized interleaving exists.
`CheckboxStateManager.saveState` runs the same read-modify-write without
a queue: its `await` points let a second call interleave anywhere. -/

abbrev StateFile := List (String × Bool)

structure Toggle where
  key : String
  val : Bool
deriving DecidableEq

/-- State of two in-flight toggles against one file: the shared file
content, and per-toggle the snapshot its read returned (none before the
read) and whether its write has happened. -/
structure TwoOpState where
  file : StateFile
  snap1 : Option StateFile
  wrote1 : Bool
  snap2 : Option StateFile
  wrote2 : Bool
deriving DecidableEq

/-- One atomic step of a toggle's read-modify-write: the first step
reads the file into the snapshot, the second writes the snapshot with
the toggle's key set; later steps do nothing. -/
def stepToggle (t : Toggle) (snap : Option StateFile) (wrote : Bool)
    (file : StateFile) : Option StateFile × Bool × StateFile :=
  match snap with
  | none => (some file, wrote, file)
  | some d =>
    if wrote then (some d, wrote, file)
    else (some d, true, setAssoc d t.key t.val)

/-- Run two toggles under a schedule: `false` steps toggle 1, `true`
steps toggle 2.  Every interleaving of the two read-modify-write pairs
is some schedule; this is the unqueued `saveState` semantics. -/
def execSchedule (t1 t2 : Toggle) (sched : List Bool) (init : StateFile) : TwoOpState :=
  sched.foldl
    (fun st who =>
      if who then
        let r := stepToggle t2 st.snap2 st.wrote2 st.file
        { st with snap2 := r.1, wrote2 := r.2.1, file := r.2.2 }
      else
        let r := stepToggle t1 st.snap1 st.wrote1 st.file
        { st with snap1 := r.1, wrote1 := r.2.1, file := r.2.2 })
    { file := init, snap1 := none, wrote1 := false, snap2 := none, wrote2 := false }

/-- The only schedule `queueWrite`'s promise chaining admits for one
file path: the first body runs to completion before the second starts. -/
def queuedExec (t1 t2 : Toggle) (init : StateFile) : StateFile :=
  (execSchedule t1 t2 [false, false, true, true] init).file


/-! ## Sample inputs used by witnesses and counterexamples -/

/-- A number-typed column under default configuration. -/
def numberColumnEx : DataColumn :=
  indexColumn "Amount" { typeOpt := some ColumnType.number } 0

/-- A date-typed column under default configuration. -/
def dateColumnEx : DataColumn :=
  indexColumn "When" { typeOpt := some ColumnType.date } 0

/-- A bool-typed column under default token configuration
(display tokens ✔️ / ✖️). -/
def boolColumnDefault : DataColumn :=
  indexColumn "Done" { typeOpt := some ColumnType.bool } 0

/-- A bool-typed column whose display tokens coincide with the default
extraction input tokens 1 / 0. -/
def boolColumnAligned : DataColumn :=
  indexColumn "Done"
    { typeOpt := some ColumnType.bool, yesFormatOpt := some "1",
      noFormatOpt := some "0" } 0

/-- A string-typed column with header A. -/
def strColumnEx : DataColumn := indexColumn "A" {} 0

/-- A bare row with a given original index. -/
def mkIndexRow (i : Nat) : RowView :=
  { index := i, values := [], searchIndex := "" }

/-- A bare row. -/
def rowEx : RowView := mkIndexRow 0

/-- Twelve rows, indices 0 through 11. -/
def rowsTwelve : List RowView := (List.range 12).map mkIndexRow

/-- The pagination configuration page-size 25, page-sizes [50, 25]. -/
def pageCfgEx : PaginationConfig :=
  { pageSizeOpt := some 25, pageSizesOpt := some [50, 25] }

/-! ## Claims -/

/-- C1: for every raw cell string and every column, `extractValue` never
throws (it is total), and a raw value failing to parse against a
date/datetime/time column yields `null`; but a number column always
yields `Number(raw)` — which is `NaN`, not `null`, on a raw string that
is not a valid numeral, because `Number()` never throws and the
`catch` branch is unreachable.  This is the amended form of the claim;
the original "number parse failure yields null" is refuted by
`c1_counterexample`. -/
theorem c1_extract_parse_failure (raw : String) (col : DataColumn) (df yf : String) :
    ((col.type = ColumnType.date ∨ col.type = ColumnType.datetime ∨
        col.type = ColumnType.time) →
      momentParse raw df = none → extractValue raw col df yf = Value.null) ∧
    (col.type = ColumnType.number →
      extractValue raw col df yf = Value.num (jsNumberOfString raw) ∧
      extractValue raw col df yf ≠ Value.null) := by
  constructor
  · rintro (h | h | h) hp <;> simp [extractValue, h, hp]
  · intro h
    refine ⟨by simp [extractValue, h], by simp [extractValue, h]⟩

/-- C1 witness: a concrete unparsable date yields `null`, and a concrete
number column yields the `Number()` result (never `null`). -/
theorem c1_extract_parse_failure_witness :
    extractValue "xx" dateColumnEx DEFAULT_DATE_FORMAT DEFAULT_BOOL_YES_INPUT
        = Value.null ∧
    (extractValue "abc" numberColumnEx DEFAULT_DATE_FORMAT DEFAULT_BOOL_YES_INPUT
        = Value.num (jsNumberOfString "abc") ∧
      extractValue "abc" numberColumnEx DEFAULT_DATE_FORMAT DEFAULT_BOOL_YES_INPUT
        ≠ Value.null) :=
  ⟨(c1_extract_parse_failure "xx" dateColumnEx DEFAULT_DATE_FORMAT
        DEFAULT_BOOL_YES_INPUT).1 (Or.inl (by decide)) (by decide),
    (c1_extract_parse_failure "abc" numberColumnEx DEFAULT_DATE_FORMAT
        DEFAULT_BOOL_YES_INPUT).2 (by decide)⟩

/-- C1 counterexample: on the number column, the raw string "abc" — not
a valid numeral — extracts to `NaN`, not to `null` as the claim states. -/
theorem c1_number_not_null_counterexample :
    extractValue "abc" numberColumnEx DEFAULT_DATE_FORMAT DEFAULT_BOOL_YES_INPUT
        = Value.num JsNumber.nan ∧
    extractValue "abc" numberColumnEx DEFAULT_DATE_FORMAT DEFAULT_BOOL_YES_INPUT
        ≠ Value.null := by
  constructor <;> decide

/-- C2 (amended): the boolean display formatter emits the column-level
yes/no display tokens, while extraction compares the raw cell against
the table-level yes input token; the round-trip
`extract(format(true)) = true` (and `false` for the no token) holds
exactly when the column display tokens line up with the extraction
token — the display yes token equal to it, the display no token
different from it. -/
theorem c2_bool_roundtrip (c : DataColumn) (df yesInput : String)
    (htype : c.type = ColumnType.bool)
    (hyes : c.yesFormat = yesInput) (hno : c.noFormat ≠ yesInput) :
    makeFormatterForColumn c none (Value.bool true) = Value.str c.yesFormat ∧
    makeFormatterForColumn c none (Value.bool false) = Value.str c.noFormat ∧
    extractValue c.yesFormat c df yesInput = Value.bool true ∧
    extractValue c.noFormat c df yesInput = Value.bool false := by
  refine ⟨?_, ?_, ?_, ?_⟩
  · simp [makeFormatterForColumn, htype, jsTruthy]
  · simp [makeFormatterForColumn, htype, jsTruthy]
  · simp [extractValue, htype, hyes]
  · simp [extractValue, htype, hno]

/-- C2 witness: a bool column whose display tokens are the default
input tokens 1 / 0 does round-trip. -/
theorem c2_bool_roundtrip_witness :
    makeFormatterForColumn boolColumnAligned none (Value.bool true)
        = Value.str boolColumnAligned.yesFormat ∧
    makeFormatterForColumn boolColumnAligned none (Value.bool false)
        = Value.str boolColumnAligned.noFormat ∧
    extractValue boolColumnAligned.yesFormat boolColumnAligned DEFAULT_DATE_FORMAT "1"
        = Value.bool true ∧
    extractValue boolColumnAligned.noFormat boolColumnAligned DEFAULT_DATE_FORMAT "1"
        = Value.bool false :=
  c2_bool_roundtrip boolColumnAligned DEFAULT_DATE_FORMAT "1" (by decide) (by decide)
    (by decide)

/-- C2 counterexample: under the default token configuration the
formatter emits ✔️ (the default display token) but extraction compares
against the default input token 1, so extracting the formatted true
value yields `false`, refuting the claimed round-trip. -/
theorem c2_roundtrip_counterexample :
    makeFormatterForColumn boolColumnDefault none (Value.bool true)
        = Value.str DEFAULT_BOOL_YES_FORMAT ∧
    extractValue DEFAULT_BOOL_YES_FORMAT boolColumnDefault DEFAULT_DATE_FORMAT
        (tableYesInputToken none) = Value.bool false := by
  constructor <;> decide

/-- C3 (code bug): a filter expression whose evaluation throws is not
treated as "does not match" — the cached function built by
`createFilterFunctionCache` rethrows (the try/catch around the cache
assignment is dead code), and the exception propagates out of
`result.filter`, aborting the whole filtering stage instead of
producing a filtered result. -/
theorem c3_throwing_filter_aborts :
    cachedFilterFunction FilterExpr.throwing rowEx = Except.error () ∧
    applyFilterStage [FilterExpr.throwing] "" [rowEx] = Except.error () ∧
    applyFilterStage [FilterExpr.throwing] "" [rowEx] ≠ Except.ok [] := by
  refine ⟨rfl, rfl, by intro h; cases h⟩


/-- A row matching a longer filter conjunction matches the shorter one:
`every` on `e :: F` evaluating to true forces `e` to evaluate true and
the rest to evaluate true. -/
theorem rowMatchesFilters_cons_true {e : FilterExpr} {F : List FilterExpr} {r : RowView}
    (h : rowMatchesFilters (e :: F) r = Except.ok true) :
    rowMatchesFilters F r = Except.ok true := by
  cases he : cachedFilterFunction e r with
  | error er => simp [rowMatchesFilters, he] at h
  | ok b =>
    cases b with
    | false => simp [rowMatchesFilters, he] at h
    | true => simpa [rowMatchesFilters, he] using h

/-- Adding a filter predicate can only shrink the per-row pass test. -/
theorem rowPassesBool_cons {e : FilterExpr} {F : List FilterExpr} {S : String} {r : RowView}
    (h : rowPassesBool (e :: F) S r = true) : rowPassesBool F S r = true := by
  unfold rowPassesBool at h ⊢
  rw [Bool.and_eq_true] at h ⊢
  refine ⟨?_, h.2⟩
  obtain ⟨h1, _⟩ := h
  cases hm : rowMatchesFilters (e :: F) r with
  | error er => rw [hm] at h1; simp at h1
  | ok b =>
    rw [hm] at h1
    cases b with
    | false => simp at h1
    | true => rw [rowMatchesFilters_cons_true hm]

/-- A successful run of the raw filter loop computes exactly the boolean
filter by `rowPassesBool`. -/
theorem filterRowsExcept_ok_eq {F : List FilterExpr} {S : String} :
    ∀ {rows out : List RowView}, filterRowsExcept F S rows = Except.ok out →
      out = rows.filter (rowPassesBool F S) := by
  intro rows
  induction rows with
  | nil =>
    intro out h
    rw [filterRowsExcept] at h
    injection h with h
    subst h
    simp
  | cons r rest ih =>
    intro out h
    rw [filterRowsExcept] at h
    cases hm : rowMatchesFilters F r with
    | error e =>
      simp only [hm] at h
      exact Except.noConfusion h
    | ok m =>
      simp only [hm] at h
      cases ht : filterRowsExcept F S rest with
      | error e =>
        simp only [hm, ht] at h
        exact Except.noConfusion h
      | ok tail =>
        simp only [ht] at h
        have htail := ih ht
        have hrp : rowPassesBool F S r = (m && (S == "" || strContains r.searchIndex S)) := by
          simp [rowPassesBool, hm]
        split at h
        next hk =>
          injection h with h
          subst h
          simp [List.filter_cons, hrp, hk, htail]
        next hk =>
          injection h with h
          subst h
          have hk2 : (m && (S == "" || strContains r.searchIndex S)) = false :=
            Bool.not_eq_true _ |>.mp hk
          rw [List.filter_cons, hrp, hk2]
          simpa using htail

/-- A successful run of the guarded filter stage computes exactly the
boolean filter by `rowPassesBool`. -/
theorem applyFilterStage_ok_eq {F : List FilterExpr} {S : String} {rows out : List RowView}
    (h : applyFilterStage F S rows = Except.ok out) :
    out = rows.filter (rowPassesBool F S) := by
  unfold applyFilterStage at h
  by_cases hc : (F.isEmpty && (S == "")) = true
  · rw [if_pos hc] at h
    injection h with h
    subst h
    rw [Bool.and_eq_true] at hc
    have hF : F = [] := List.isEmpty_iff.mp hc.1
    have hS : S = "" := eq_of_beq hc.2
    subst hF hS
    exact (List.filter_eq_self.mpr
      (fun a _ => by simp [rowPassesBool, rowMatchesFilters])).symm
  · rw [if_neg hc] at h
    exact filterRowsExcept_ok_eq h


/-- C4: whenever the filter/search stage completes (its evaluation does
not throw), its result is a sublist of the input rows — every output
row is an input row, in the same relative order — and extending the
active predicate set by one more predicate never increases the number
of surviving rows. -/
theorem c4_filter_sublist_monotone (P : List FilterExpr) (e : FilterExpr) (S : String)
    (rows out out2 : List RowView)
    (h : applyFilterStage P S rows = Except.ok out)
    (h2 : applyFilterStage (e :: P) S rows = Except.ok out2) :
    out.Sublist rows ∧ out2.length ≤ out.length := by
  have he := applyFilterStage_ok_eq h
  have he2 := applyFilterStage_ok_eq h2
  subst he he2
  exact ⟨List.filter_sublist rows,
    (List.monotone_filter_right rows (fun a ha => rowPassesBool_cons ha)).length_le⟩

/-- C4 witness: with no predicates the stage passes the row through, and
adding an always-false predicate shrinks the result to the empty list. -/
theorem c4_filter_sublist_monotone_witness :
    List.Sublist [rowEx] [rowEx] ∧
      List.length ([] : List RowView) ≤ List.length [rowEx] :=
  c4_filter_sublist_monotone [] (FilterExpr.pred (fun _ => false)) "" [rowEx]
    [rowEx] [] rfl rfl

/-- C5: for date, datetime and time columns, `getSortingFunction`
returns the chronological comparator (descending when the directive is
`-`-prefixed), and that comparator orders a missing (null) value after
every present value in ascending order (comparator value 1 / -1),
before every present value in descending order, and two missing values
as equal. -/
theorem c5_date_sort_missing_ordering (cols : List DataColumn) (col : DataColumn)
    (htype : col.type = ColumnType.date ∨ col.type = ColumnType.datetime ∨
      col.type = ColumnType.time)
    (hsd : stripDescMarker col.aliasName = (false, col.aliasName))
    (hfind : cols.find? (fun c => c.aliasName == col.aliasName) = some col) :
    getSortingFunction col.aliasName cols = some (dateSortCompare false) ∧
    getSortingFunction ("-" ++ col.aliasName) cols = some (dateSortCompare true) ∧
    (∀ p : DateParts,
      dateSortCompare false Value.null (Value.date p) = 1 ∧
      dateSortCompare false (Value.date p) Value.null = -1 ∧
      dateSortCompare true Value.null (Value.date p) = -1 ∧
      dateSortCompare true (Value.date p) Value.null = 1) ∧
    dateSortCompare false Value.null Value.null = 0 ∧
    dateSortCompare true Value.null Value.null = 0 := by
  refine ⟨?_, ?_, ?_, by decide, by decide⟩
  · rcases htype with h | h | h <;>
      simp [getSortingFunction, hsd, hfind, h]
  · have hdash : stripDescMarker ("-" ++ col.aliasName) = (true, col.aliasName) := by
      unfold stripDescMarker
      cases col.aliasName with
      | mk data => rfl
    rcases htype with h | h | h <;>
      simp [getSortingFunction, hdash, hfind, h]
  · intro p
    refine ⟨?_, ?_, ?_, ?_⟩ <;> simp [dateSortCompare, jsTruthy]

/-- C5 witness: the concrete date column named When in a one-column
table. -/
theorem c5_date_sort_missing_ordering_witness :
    getSortingFunction dateColumnEx.aliasName [dateColumnEx]
        = some (dateSortCompare false) ∧
    getSortingFunction ("-" ++ dateColumnEx.aliasName) [dateColumnEx]
        = some (dateSortCompare true) ∧
    (∀ p : DateParts,
      dateSortCompare false Value.null (Value.date p) = 1 ∧
      dateSortCompare false (Value.date p) Value.null = -1 ∧
      dateSortCompare true Value.null (Value.date p) = -1 ∧
      dateSortCompare true (Value.date p) Value.null = 1) ∧
    dateSortCompare false Value.null Value.null = 0 ∧
    dateSortCompare true Value.null Value.null = 0 :=
  c5_date_sort_missing_ordering [dateColumnEx] dateColumnEx (Or.inl (by decide))
    (by decide) (by decide)


/-- JavaScript `slice` with ordered non-negative indices is the
zero-indexed half-open sublist. -/
theorem jsArraySlice_eq_drop_take {α : Type} (l : List α) (s e : Int)
    (hs : 0 ≤ s) (hse : s ≤ e) :
    jsArraySlice l s e = (l.drop s.toNat).take (e.toNat - s.toNat) := by
  unfold jsArraySlice jsSliceNorm
  rw [if_neg (by omega), if_neg (by omega)]
  by_cases hal : s.toNat < l.length
  · rw [Nat.min_eq_left (Nat.le_of_lt hal)]
    by_cases hbl : e.toNat ≤ l.length
    · rw [Nat.min_eq_left hbl, List.take_drop]
      congr 2
      omega
    · rw [Nat.min_eq_right (by omega), List.take_length,
        List.take_of_length_le (by simp [List.length_drop]; omega)]
  · rw [Nat.min_eq_right (by omega)]
    rw [List.drop_eq_nil_of_le (by simp [List.length_take]),
      List.drop_eq_nil_of_le (by omega)]
    simp

/-- C6: the pagination stage returns exactly the slice
`rows[pageSize*(pageNumber-1) .. pageSize*pageNumber)` for any 1-based
page number; on 12 rows with page size 5 and page number 2 that is rows
5 through 9; and any page number beyond the last page yields the empty
list rather than an error. -/
theorem c6_pagination_slice (rows : List RowView) (ps pn : Int) (sizes : List Int) :
    (0 ≤ ps → 1 ≤ pn →
      paginateStage (some { pageSize := ps, pageNumber := pn, pageSizes := sizes }) rows
        = (rows.drop (ps * (pn - 1)).toNat).take ps.toNat) ∧
    (paginateStage (some { pageSize := 5, pageNumber := 2, pageSizes := [] }) rowsTwelve
        = (rowsTwelve.drop 5).take 5) ∧
    (1 ≤ ps → ((rows.length : Int) + ps - 1) / ps < pn →
      paginateStage (some { pageSize := ps, pageNumber := pn, pageSizes := sizes }) rows
        = []) := by
  refine ⟨?_, by decide, ?_⟩
  · intro hps hpn
    have hB : 0 ≤ ps * (pn - 1) := by nlinarith
    have h1 : ps * pn - ps * (pn - 1) = ps := by ring
    show jsArraySlice rows (ps * (pn - 1)) (ps * pn)
        = (rows.drop (ps * (pn - 1)).toNat).take ps.toNat
    rw [jsArraySlice_eq_drop_take rows _ _ hB (by omega)]
    congr 1
    omega
  · intro hps hpn
    have hpn1 : 1 ≤ pn := by
      have hnn : (0 : Int) ≤ ((rows.length : Int) + ps - 1) / ps :=
        Int.ediv_nonneg (by omega) (by omega)
      omega
    have hceil : (rows.length : Int) ≤ ps * (pn - 1) := by
      have h1 : ((rows.length : Int) + ps - 1) / ps ≤ pn - 1 := by omega
      have h2 : ps * (((rows.length : Int) + ps - 1) / ps) ≤ ps * (pn - 1) :=
        Int.mul_le_mul_of_nonneg_left h1 (by omega)
      have h3 : ((rows.length : Int) + ps - 1) % ps < ps := Int.emod_lt_of_pos _ (by omega)
      have h4 : ((rows.length : Int) + ps - 1) % ps +
          ps * (((rows.length : Int) + ps - 1) / ps) = (rows.length : Int) + ps - 1 :=
        Int.emod_add_ediv _ _
      omega
    have hB : 0 ≤ ps * (pn - 1) := by nlinarith
    have h1 : ps * pn - ps * (pn - 1) = ps := by ring
    show jsArraySlice rows (ps * (pn - 1)) (ps * pn) = []
    rw [jsArraySlice_eq_drop_take rows _ _ hB (by omega)]
    rw [List.drop_eq_nil_of_le (by omega)]
    simp

/-- C6 witness: the concrete page (rows 5 through 9 of 12) obtained by
instantiating the slice equation, and page 4 of 12 at page size 5 is
empty. -/
theorem c6_pagination_slice_witness :
    (paginateStage (some { pageSize := 5, pageNumber := 2, pageSizes := [] }) rowsTwelve
        = (rowsTwelve.drop ((5 * (2 - 1) : Int)).toNat).take ((5 : Int)).toNat) ∧
    paginateStage (some { pageSize := 5, pageNumber := 4, pageSizes := [] }) rowsTwelve
        = [] :=
  ⟨(c6_pagination_slice rowsTwelve 5 2 []).1 (by decide) (by decide),
    (c6_pagination_slice rowsTwelve 5 4 []).2.2 (by decide) (by decide)⟩

/-- C7 (amended): the page-size option list always contains the
configured page size — appended when absent — but it is not kept in
ascending numeric order: when the configured page size is already
present the configured order is left untouched, and when it is appended
the list is sorted with the default string-comparing comparator of
`Array.prototype.sort`, which is lexicographic, not numeric.  The
resulting list is always a permutation of the configured list plus, if
absent, the configured page size. -/
theorem c7_page_sizes_membership (c : PaginationConfig) (p : Pagination)
    (h : initPagination (some c) = some p) :
    p.pageSize ∈ p.pageSizes ∧
    p.pageSizes.Perm
      (if c.pageSizeOpt.getD DEFAULT_PAGE_SIZE ∈
          c.pageSizesOpt.getD DEFAULT_PAGES_SIZE_OPTIONS then
        c.pageSizesOpt.getD DEFAULT_PAGES_SIZE_OPTIONS
      else c.pageSizesOpt.getD DEFAULT_PAGES_SIZE_OPTIONS
          ++ [c.pageSizeOpt.getD DEFAULT_PAGE_SIZE]) := by
  rw [initPagination] at h
  injection h with h
  subst h
  by_cases hm : c.pageSizeOpt.getD DEFAULT_PAGE_SIZE ∈
      c.pageSizesOpt.getD DEFAULT_PAGES_SIZE_OPTIONS
  · simp only [if_pos hm]
    exact ⟨hm, List.Perm.refl _⟩
  · simp only [if_neg hm]
    constructor
    · exact (List.perm_insertionSort _ _).mem_iff.mpr
        (List.mem_append_right _ (List.mem_singleton_self _))
    · exact List.perm_insertionSort _ _

/-- C7 witness: configured page size 25 with configured list [50, 25]. -/
theorem c7_page_sizes_membership_witness :
    (25 : Int) ∈ [(50 : Int), 25] ∧
      List.Perm [(50 : Int), 25]
        (if (25 : Int) ∈ [(50 : Int), 25] then [(50 : Int), 25]
          else [(50 : Int), 25] ++ [(25 : Int)]) := by
  have h := c7_page_sizes_membership pageCfgEx
    { pageNumber := 1, pageSize := 25, pageSizes := [50, 25] } (by decide)
  exact h

/-- C7 counterexample: with configured page size 25 and configured list
[50, 25] the resulting option list is [50, 25] — the configured page
size is already present, no sorting happens, and the list is not in
ascending numeric order. -/
theorem c7_not_ascending_counterexample :
    (initPagination (some pageCfgEx)).map Pagination.pageSizes = some [50, 25] ∧
    ¬ List.Sorted (· ≤ ·) [(50 : Int), 25] := by
  constructor
  · decide
  · intro h
    have := List.rel_of_sorted_cons h 25 (by simp)
    omega


/-- The row built for row index `rowIdx` carries that index. -/
theorem buildRow_index (columns : List DataColumn) (df dtf yf : String)
    (cf : List (String × CustomFormatter)) (rl : Option (List (List String)))
    (rowIdx : Nat) (cells : List String) (states : CheckboxStates) :
    (buildRow columns df dtf yf cf rl rowIdx cells states).1.index = rowIdx := rfl

/-- Rows built by the row loop carry their position offset by the
starting index. -/
theorem buildRowsAux_index (columns : List DataColumn) (df dtf yf : String)
    (cf : List (String × CustomFormatter)) (rl : Option (List (List String))) :
    ∀ (rows : List (List String)) (start : Nat) (states : CheckboxStates)
      (j : Nat) (rv : RowView),
      ((buildRowsAux columns df dtf yf cf rl start states rows).1).get? j = some rv →
      rv.index = start + j := by
  intro rows
  induction rows with
  | nil =>
    intro start states j rv h
    simp [buildRowsAux] at h
  | cons cells rest ih =>
    intro start states j rv h
    rw [buildRowsAux] at h
    cases j with
    | zero =>
      simp only [List.get?] at h
      injection h with h
      subst h
      rw [buildRow_index]
      omega
    | succ j2 =>
      simp only [List.get?] at h
      have := ih (start + 1) _ j2 rv h
      omega

/-- The pagination stage only selects rows. -/
theorem paginateStage_sublist (p : Option Pagination) (l : List RowView) :
    (paginateStage p l).Sublist l := by
  cases p with
  | none => exact List.Sublist.refl l
  | some pg => exact (List.drop_sublist _ _).trans (List.take_sublist _ _)

/-- The sort stage only permutes rows. -/
theorem sortStage_perm (s : Option String) (cols : List DataColumn) (l : List RowView) :
    (sortStage s cols l).Perm l := by
  cases s with
  | none => exact List.Perm.refl l
  | some str =>
    cases hg : getSortingFunction str cols with
    | none =>
      simp only [sortStage, hg]
      exact List.Perm.refl l
    | some f =>
      simp only [sortStage, hg]
      exact List.perm_insertionSort _ _

/-- C8: every row object in the emitted view (after filtering, sorting
and pagination, for any directives) sits at position `index` of the
originally built row list — its position in `tableData.rows` — so the
`index` field survives the whole pipeline unchanged. -/
theorem c8_row_index_original (columns : List DataColumn) (df dtf yf : String)
    (cf : List (String × CustomFormatter)) (rl : Option (List (List String)))
    (states0 : CheckboxStates) (tableRows : List (List String))
    (filtering : List FilterExpr) (searching : Option String)
    (sorting : Option String) (pagination : Option Pagination) (out : List RowView)
    (h : computeRows columns df dtf yf cf rl states0 tableRows filtering searching
        sorting pagination = Except.ok out) :
    ∀ rv ∈ out,
      (buildRows columns df dtf yf cf rl states0 tableRows).get? rv.index = some rv := by
  intro rv hrv
  rw [computeRows] at h
  cases hf : applyFilterStage filtering ((searching.map jsToLower).getD "")
      (buildRows columns df dtf yf cf rl states0 tableRows) with
  | error e =>
    simp only [hf] at h
    exact Except.noConfusion h
  | ok filtered =>
    simp only [hf] at h
    injection h with h
    subst h
    have h1 : rv ∈ sortStage sorting columns filtered :=
      (paginateStage_sublist pagination _).mem hrv
    have h2 : rv ∈ filtered := (sortStage_perm sorting columns filtered).mem_iff.mp h1
    have h3 : rv ∈ buildRows columns df dtf yf cf rl states0 tableRows := by
      have := applyFilterStage_ok_eq hf
      subst this
      exact (List.filter_sublist _).mem h2
    obtain ⟨n, hn⟩ := List.get?_of_mem h3
    have hidx : rv.index = 0 + n :=
      buildRowsAux_index columns df dtf yf cf rl tableRows 0 states0 n rv hn
    rw [hidx, Nat.zero_add]
    exact hn

/-- C8 witness: a two-row string table with no directives; the first
emitted row sits at its own index in the built row list. -/
theorem c8_row_index_original_witness :
    (buildRows [strColumnEx] DEFAULT_DATE_FORMAT DEFAULT_DATE_TIME_FORMAT "1" []
        none [] [["a"], ["b"]]).get?
      (RowView.index { index := 0, values := [("A", Value.str "a")], searchIndex := "" })
      = some { index := 0, values := [("A", Value.str "a")], searchIndex := "" } :=
  c8_row_index_original [strColumnEx] DEFAULT_DATE_FORMAT DEFAULT_DATE_TIME_FORMAT "1"
    [] none [] [["a"], ["b"]] [] none none none
    [{ index := 0, values := [("A", Value.str "a")], searchIndex := "" },
      { index := 1, values := [("A", Value.str "b")], searchIndex := "" }] rfl
    { index := 0, values := [("A", Value.str "a")], searchIndex := "" }
    (List.mem_cons_self _ _)


/-- Reading back the key just set. -/
theorem getAssoc_setAssoc_self {α : Type} (l : List (String × α)) (k : String) (v : α) :
    getAssoc (setAssoc l k v) k = some v := by
  induction l with
  | nil => simp [setAssoc, getAssoc]
  | cons p rest ih =>
    obtain ⟨k2, v2⟩ := p
    by_cases h : k2 = k
    · subst h
      simp [setAssoc, getAssoc]
    · simpa [setAssoc, getAssoc, h, List.find?_cons] using ih

/-- Setting one key leaves the others unchanged. -/
theorem getAssoc_setAssoc_ne {α : Type} (l : List (String × α)) (k k2 : String) (v : α)
    (h : k2 ≠ k) : getAssoc (setAssoc l k v) k2 = getAssoc l k2 := by
  have hkk : (k == k2) = false := beq_eq_false_iff_ne.mpr (fun e => h e.symm)
  induction l with
  | nil => simp [setAssoc, getAssoc, List.find?_cons, hkk]
  | cons p rest ih =>
    obtain ⟨k3, v3⟩ := p
    by_cases h3 : k3 = k
    · subst h3
      simp [setAssoc, getAssoc, List.find?_cons, hkk]
    · have hset : setAssoc ((k3, v3) :: rest) k v = (k3, v3) :: setAssoc rest k v := by
        simp [setAssoc, h3]
      rw [hset]
      by_cases h32 : k3 = k2
      · subst h32
        simp [getAssoc, List.find?_cons]
      · have hne : (k3 == k2) = false := beq_eq_false_iff_ne.mpr h32
        simpa [getAssoc, List.find?_cons, hne] using ih

/-- The serialized schedule is two back-to-back read-modify-writes. -/
theorem queuedExec_eq (t1 t2 : Toggle) (init : StateFile) :
    queuedExec t1 t2 init = setAssoc (setAssoc init t1.key t1.val) t2.key t2.val := rfl

/-- C9 (amended): toggles routed through `queueWrite` are serialized per
file path — the promise chain admits only the schedule that runs the
first read-modify-write to completion before the second starts — and
two toggles of distinct identifiers both reach the final state file.
(The unqueued `CheckboxStateManager.saveState` admits other schedules;
see the counterexample.) -/
theorem c9_queue_serializes (t1 t2 : Toggle) (init : StateFile)
    (h : t1.key ≠ t2.key) :
    getAssoc (queuedExec t1 t2 init) t1.key = some t1.val ∧
    getAssoc (queuedExec t1 t2 init) t2.key = some t2.val := by
  rw [queuedExec_eq]
  constructor
  · rw [getAssoc_setAssoc_ne _ _ _ _ h]
    exact getAssoc_setAssoc_self _ _ _
  · exact getAssoc_setAssoc_self _ _ _

/-- C9 witness: two concrete toggles of distinct identifiers through the
queued path both persist. -/
theorem c9_queue_serializes_witness :
    getAssoc (queuedExec { key := "a", val := true } { key := "b", val := true } [])
        "a" = some true ∧
    getAssoc (queuedExec { key := "a", val := true } { key := "b", val := true } [])
        "b" = some true :=
  c9_queue_serializes { key := "a", val := true } { key := "b", val := true } []
    (by decide)

/-- C9 counterexample: `CheckboxStateManager.saveState` issues its read
and its write with `await` points between them and no queue, so the
interleaving read₁ read₂ write₁ write₂ is possible — and under it the
second write, based on the state snapshot read before the first write,
erases the first toggle: the final file holds only identifier b, and
identifier a's update is lost, refuting "the writes are serialized …
and the final state file contains both updates, regardless of
interleaving". -/
theorem c9_lost_update_counterexample :
    (execSchedule { key := "a", val := true } { key := "b", val := true }
        [false, true, false, true] []).file = [("b", true)] ∧
    getAssoc (execSchedule { key := "a", val := true } { key := "b", val := true }
        [false, true, false, true] []).file "a" = none := by
  constructor <;> decide

/-- C10: when the document has no markdown table, or no table block
exists at the requested index, `insertLine`, `modifyLine` and
`removeLine` return the document unchanged and `readLine` returns
null — a failed table operation never alters any part of the document. -/
theorem c10_no_table_no_change (fileContent : String) (tableIndex : Nat) (lineNo : Int)
    (values : List String)
    (h : hasTables (documentToBlocks fileContent) = false ∨
      getTable (documentToBlocks fileContent) tableIndex = none) :
    insertLine fileContent lineNo values tableIndex = fileContent ∧
    modifyLine fileContent lineNo values tableIndex = fileContent ∧
    removeLine fileContent lineNo tableIndex = fileContent ∧
    readLine fileContent lineNo tableIndex = none := by
  rcases h with h | h
  · refine ⟨?_, ?_, ?_, ?_⟩ <;>
      simp [insertLine, modifyLine, removeLine, readLine, h]
  · by_cases hh : hasTables (documentToBlocks fileContent) = false
    · refine ⟨?_, ?_, ?_, ?_⟩ <;>
        simp [insertLine, modifyLine, removeLine, readLine, hh]
    · rw [Bool.not_eq_false] at hh
      refine ⟨?_, ?_, ?_, ?_⟩ <;>
        simp [insertLine, modifyLine, removeLine, readLine, hh, h]

/-- C10 witness: a document with no table at all, and a one-table
document addressed at table index 1. -/
theorem c10_no_table_no_change_witness :
    (insertLine "hello" 0 ["x"] 0 = "hello" ∧
      modifyLine "hello" 0 ["x"] 0 = "hello" ∧
      removeLine "hello" 0 0 = "hello" ∧
      readLine "hello" 0 0 = none) ∧
    (insertLine "|h|\n|---|\n|1|" 0 ["x"] 1 = "|h|\n|---|\n|1|" ∧
      modifyLine "|h|\n|---|\n|1|" 0 ["x"] 1 = "|h|\n|---|\n|1|" ∧
      removeLine "|h|\n|---|\n|1|" 0 1 = "|h|\n|---|\n|1|" ∧
      readLine "|h|\n|---|\n|1|" 0 1 = none) :=
  ⟨c10_no_table_no_change "hello" 0 0 ["x"] (Or.inl (by decide)),
    c10_no_table_no_change "|h|\n|---|\n|1|" 1 0 ["x"] (Or.inr (by decide))⟩

end DynTable
